import Mathlib

set_option autoImplicit false

/-!
Shallow embedding of the client-orchestration core of `aiohttp/client.py`
(`ClientSession`): header merging, the redirect loop of `ClientSession._request`,
timeout-policy resolution, `close()`, and the WebSocket handshake validation of
`ClientSession._ws_connect`.
-/

namespace Aiohttp

/-! ## Header model: `multidict.CIMultiDict`

Header collections are modelled as insertion-ordered lists of name/value pairs
with case-insensitive names, mirroring `CIMultiDict`. -/

/-- ASCII lower-casing of a character. -/
def lcChar (c : Char) : Char :=
  if 65 ≤ c.toNat ∧ c.toNat ≤ 90 then Char.ofNat (c.toNat + 32) else c

/-- ASCII lower-casing of a string, modelling Python's `str.lower()` on the
ASCII strings that header names and the handshake header values are. -/
def asciiLower (s : String) : String := String.mk (s.toList.map lcChar)

/-- Case-insensitive header-name equality, as used by `CIMultiDict` / `istr` keys. -/
def hkeyEq (a b : String) : Bool := asciiLower a == asciiLower b

/-- A `CIMultiDict` of header names and values, in insertion order. -/
abbrev Headers := List (String × String)

/-- Operation `d.get(key)` / `d.getone(key)`: the first value stored under the key. -/
def ciGet : Headers → String → Option String
  | [], _ => none
  | (k₀, v) :: t, k => bif hkeyEq k₀ k then some v else ciGet t k

/-- Operation `d.getall(key)`: every value stored under the key, in order. -/
def ciGetAll (h : Headers) (k : String) : List String :=
  (h.filter (fun p => hkeyEq p.1 k)).map (·.2)

/-- Membership test `key in d`. -/
def ciContains (h : Headers) (k : String) : Bool :=
  h.any (fun p => hkeyEq p.1 k)

/-- Drop every entry stored under the key. -/
def ciDelAll (h : Headers) (k : String) : Headers :=
  h.filter (fun p => !hkeyEq p.1 k)

/-- Assignment `d[key] = value`: replace the first entry with this key in place, dropping any
later entries with the same key; append when the key is absent. -/
def ciSetItem : Headers → String → String → Headers
  | [], k, v => [(k, v)]
  | (k₀, v₀) :: t, k, v =>
      bif hkeyEq k₀ k then (k, v) :: ciDelAll t k else (k₀, v₀) :: ciSetItem t k v

/-- Operation `d.add(key, value)`: append an entry, keeping existing entries for the key. -/
def ciAdd (h : Headers) (k v : String) : Headers := h ++ [(k, v)]

/-- Operation `d.setdefault(key, value)`: append the entry only when the key is absent. -/
def ciSetDefault (h : Headers) (k v : String) : Headers :=
  bif ciContains h k then h else h ++ [(k, v)]

/-- Operation `d.pop(key)` / `d.pop(key, default)`: remove the first entry stored under the
key (later duplicates are kept), as `multidict`'s `pop`/`popone`. -/
def ciPop : Headers → String → Headers
  | [], _ => []
  | (k₀, v₀) :: t, k => bif hkeyEq k₀ k then t else (k₀, v₀) :: ciPop t k

/-! ## Header-name and method constants (`aiohttp.hdrs`) -/

def AUTHORIZATION : String := "Authorization"
def CONTENT_LENGTH : String := "Content-Length"
def UPGRADE : String := "Upgrade"
def CONNECTION : String := "Connection"
def SEC_WEBSOCKET_VERSION : String := "Sec-WebSocket-Version"
def SEC_WEBSOCKET_KEY : String := "Sec-WebSocket-Key"
def SEC_WEBSOCKET_ACCEPT : String := "Sec-WebSocket-Accept"
def WEBSOCKET : String := "websocket"
def METH_GET : String := "GET"
def METH_HEAD : String := "HEAD"
def METH_POST : String := "POST"

/-! ## `ClientSession._prepare_headers` -/

/-- Loop body of `ClientSession._prepare_headers`: iterate the caller-supplied
items; a key seen for the first time is set (`result[key] = value`), a repeated
key is added (`result.add(key, value)`). `added` models the `added_names` set
(of case-insensitive `istr` keys). -/
def prepareHeadersGo : Headers → List String → Headers → Headers
  | result, _, [] => result
  | result, added, (k, v) :: rest =>
      bif added.any (fun a => hkeyEq a k) then
        prepareHeadersGo (ciAdd result k v) added rest
      else
        prepareHeadersGo (ciSetItem result k v) (k :: added) rest

/-- Embedding of `ClientSession._prepare_headers`: start from a copy of the session default
headers and fold the caller-supplied headers over them. -/
def prepare_headers (defaults : Headers) (headers : Option Headers) : Headers :=
  match headers with
  | none => defaults
  | some hs => prepareHeadersGo defaults [] hs

/-! ## URLs, authentication and responses

`yarl.URL` is an external collaborator; the orchestrator consults only the
scheme, the origin (scheme+host+port), and scheme-relative joining. -/

/-- Modelled from the spec: the fields of a parsed `yarl.URL` that the
orchestrator consults (origin is the scheme+host+port tuple of the glossary). -/
structure Url where
  scheme : String
  host : String
  port : Nat
  path : String
deriving DecidableEq

/-- Origin `url.origin()` as used by the cross-origin check: scheme + host + port. -/
def Url.origin (u : Url) : String × String × Nat := (u.scheme, u.host, u.port)

/-- Modelled from the spec: `url.join(r_url)` for a scheme-relative target, which
keeps the target's authority and path but inherits the base scheme. -/
def Url.join (base r : Url) : Url := { r with scheme := base.scheme }

/-- Embedding of `aiohttp.helpers.BasicAuth`: login and password. -/
structure BasicAuth where
  login : String
  password : String
deriving DecidableEq

/-- Modelled from the spec: the redirect target of a response, i.e. the outcome of
`resp.headers.get(LOCATION) or resp.headers.get(URI)` followed by `URL(r_url, ...)`
parsing (both reads and `yarl` parsing are external to the orchestrator):
the header may be absent, fail URL parsing, or yield a parsed target URL. -/
inductive LocHeader where
  | absent
  | malformed
  | target (u : Url)
deriving DecidableEq

/-- The slice of a `ClientResponse` the orchestrator consults: status, the
method of the request that produced it, the response headers, and the parsed
redirect target (see `LocHeader`). -/
structure Resp where
  status : Nat
  method : String
  headers : Headers
  loc : LocHeader
deriving DecidableEq

/-! ## The redirect loop of `ClientSession._request` (lines 504-568) -/

/-- Per-iteration mutable state of the redirect loop: current method, URL,
headers, body (`data`), auth, query params, the redirect counter and the
accumulated history of intermediate responses. -/
structure HopState where
  method : String
  url : Url
  headers : Headers
  data : Option String
  auth : Option BasicAuth
  params : Option (List (String × String))
  redirects : Nat
  history : List Resp
deriving DecidableEq

/-- Redirect method/body downgrade policy (lines 525-532): on 303 with a
non-HEAD method, or 301/302 with POST, the method becomes GET, `data` is cleared
and, when `headers.get(CONTENT_LENGTH)` is truthy (present with a non-empty
first value), the first `Content-Length` entry is popped. -/
def downgrade (status : Nat) (method : String) (data : Option String)
    (headers : Headers) : String × Option String × Headers :=
  if (status = 303 ∧ method ≠ METH_HEAD) ∨
      ((status = 301 ∨ status = 302) ∧ method = METH_POST) then
    let headers :=
      match ciGet headers CONTENT_LENGTH with
      | none => headers
      | some v => bif v == "" then headers else ciPop headers CONTENT_LENGTH
    (METH_GET, none, headers)
  else
    (method, data, headers)

/-- Outcome of one pass over the redirect-decision block (lines 504-568).
`tooManyRedirects` stands for `resp.close()` followed by
`raise TooManyRedirects(history[0].request_info, tuple(history))`;
`invalidUrl` for `raise InvalidURL(r_url)`;
`badScheme` for `resp.close()` followed by
`raise ValueError(<the redirect-only-to-http-or-https message>)`;
`finalResp` for `break` (the response is final);
`nextHop` for `continue` with the mutated loop state. -/
inductive RedirectOutcome where
  | finalResp (st : HopState)
  | tooManyRedirects (history : List Resp)
  | invalidUrl
  | badScheme
  | nextHop (st : HopState)
deriving DecidableEq

/-- One pass over the redirect-decision block of `_request` (lines 504-568),
applied to the freshly received response `resp` in loop state `st`.
Mirrors the source order: status test, counter increment and history append,
max-redirect check (`if max_redirects and redirects >= max_redirects`),
method/body downgrade, redirect-target read, scheme check and scheme-relative
join, cross-origin auth stripping, params reset. -/
def processRedirect (allowRedirects : Bool) (maxRedirects : Nat)
    (st : HopState) (resp : Resp) : RedirectOutcome :=
  if (resp.status = 301 ∨ resp.status = 302 ∨ resp.status = 303 ∨
      resp.status = 307 ∨ resp.status = 308) ∧ allowRedirects = true then
    let redirects := st.redirects + 1
    let history := st.history ++ [resp]
    if maxRedirects ≠ 0 ∧ redirects ≥ maxRedirects then
      .tooManyRedirects history
    else
      match downgrade resp.status resp.method st.data st.headers with
      | (method, data, headers) =>
        match resp.loc with
        | .absent =>
            .finalResp { st with method := method, data := data, headers := headers,
                                 redirects := redirects, history := history }
        | .malformed => .invalidUrl
        | .target r₀ =>
            if r₀.scheme ≠ "http" ∧ r₀.scheme ≠ "https" ∧ r₀.scheme ≠ "" then
              .badScheme
            else
              let rUrl := if r₀.scheme = "" then st.url.join r₀ else r₀
              let auth := if st.url.origin ≠ rUrl.origin then none else st.auth
              let headers :=
                if st.url.origin ≠ rUrl.origin then ciPop headers AUTHORIZATION
                else headers
              .nextHop { method := method, url := rUrl, headers := headers,
                         data := data, auth := auth, params := none,
                         redirects := redirects, history := history }
  else
    .finalResp st

/-- Typed failures of `_request` (the exception classes reachable in the
modelled slice): `RuntimeError` for a closed session, `TypeError` for a bad
`ssl` argument, `ValueError` for `data`+`json`, `InvalidURL`,
`TooManyRedirects` (carrying the history), the redirect-scheme `ValueError`,
and a stand-in for the transport failing to produce a response. -/
inductive ReqError where
  | sessionClosed
  | sslTypeError
  | dataJsonConflict
  | invalidUrl
  | tooManyRedirects (history : List Resp)
  | badRedirectScheme
  | noResponse
deriving DecidableEq

/-- The `while True` loop of `_request`, driven by a script: the `i`-th response
of `script` is the one received over the `i`-th acquired connection. Returns the
result together with the number of connections acquired
(`self._connector.connect` calls). -/
def requestLoop (allowRedirects : Bool) (maxRedirects : Nat) :
    HopState → List Resp → Except ReqError (HopState × Resp) × Nat
  | _, [] => (.error .noResponse, 0)
  | st, resp :: rest =>
      match processRedirect allowRedirects maxRedirects st resp with
      | .nextHop st₁ =>
          match requestLoop allowRedirects maxRedirects st₁ rest with
          | (res, n) => (res, n + 1)
      | .finalResp st₁ => (.ok (st₁, resp), 1)
      | .tooManyRedirects h => (.error (.tooManyRedirects h), 1)
      | .invalidUrl => (.error .invalidUrl, 1)
      | .badScheme => (.error .badRedirectScheme, 1)

/-- The prologue of `ClientSession._request` (lines 340-351) followed by the
redirect loop: the closed-session check, the `ssl` type check, the
`data`/`json` exclusivity check (`json` being folded into `data` as a
`JsonPayload`), then the loop. The second component counts acquired
connections; every code path that raises before the loop acquires none. -/
def runRequest (sessionClosed sslOk : Bool) (data json : Option String)
    (allowRedirects : Bool) (maxRedirects : Nat) (st : HopState)
    (script : List Resp) : Except ReqError (HopState × Resp) × Nat :=
  bif sessionClosed then (.error .sessionClosed, 0)
  else bif !sslOk then (.error .sslTypeError, 0)
  else bif data.isSome && json.isSome then (.error .dataJsonConflict, 0)
  else
    let data₁ := bif json.isSome then json else data
    requestLoop allowRedirects maxRedirects { st with data := data₁ } script

/-! ## `ClientTimeout` and per-call timeout resolution (lines 136-141, 381-390) -/

/-- Embedding of `ClientTimeout`: four optional durations (durations are only carried around
by the modelled slice, never computed with, so they are represented as `Nat`). -/
structure ClientTimeout where
  total : Option Nat := none
  connect : Option Nat := none
  sock_read : Option Nat := none
  sock_connect : Option Nat := none
deriving DecidableEq

/-- Constant `DEFAULT_TIMEOUT = ClientTimeout(total=5*60)`. -/
def DEFAULT_TIMEOUT : ClientTimeout := { total := some (5 * 60) }

/-- The per-call `timeout` argument of `_request`: the `sentinel` default, a
bare value that is not a `ClientTimeout` (a number, or `None`), or a full
`ClientTimeout`. -/
inductive TimeoutArg where
  | sentinel
  | bare (d : Option Nat)
  | policy (t : ClientTimeout)
deriving DecidableEq

/-- Resolution of the effective timeout (lines 381-387): the sentinel keeps the
session policy; a non-`ClientTimeout` value `d` yields `ClientTimeout(total=d)`;
a `ClientTimeout` is used as given. -/
def realTimeout (sessionTimeout : ClientTimeout) : TimeoutArg → ClientTimeout
  | .sentinel => sessionTimeout
  | .bare d => { total := d }
  | .policy t => t

/-! ## `ClientSession.close` (lines 879-895) -/

/-- The slice of a connector (Connection Provider) the session observes: its
closed flag and, for observing teardown, the number of `close()` calls it has
received. -/
structure Connector where
  closed : Bool
  closeCount : Nat
deriving DecidableEq

/-- Teardown `BaseConnector.close()`: the pool is torn down and the connector is closed. -/
def Connector.closeConn (c : Connector) : Connector :=
  { closed := true, closeCount := c.closeCount + 1 }

/-- The session state used by `close`/`closed`: the `_connector` reference
(dropped on close) and the `_connector_owner` flag. -/
structure Session where
  connector : Option Connector
  connector_owner : Bool
deriving DecidableEq

/-- Property `ClientSession.closed`: `self._connector is None or self._connector.closed`. -/
def Session.closed (s : Session) : Bool :=
  match s.connector with
  | none => true
  | some c => c.closed

/-- Embedding of `ClientSession.close`: when not closed, tear the connector down if present
and owned, then drop the reference. Returns the session after the call together
with the number of connector teardowns (`await self._connector.close()`)
performed by this call. -/
def Session.close (s : Session) : Session × Nat :=
  bif s.closed then (s, 0)
  else
    match s.connector, s.connector_owner with
    | some _, true => ({ connector := none, connector_owner := s.connector_owner }, 1)
    | _, _ => ({ connector := none, connector_owner := s.connector_owner }, 0)

/-! ## SHA-1 and base64

`hashlib.sha1` and `base64.b64encode` are Python standard-library collaborators;
they are embedded here as the standard algorithms so the wire-level contract of
the spec (the `Sec-WebSocket-Accept` computation) can be checked bit-exactly.
Byte strings are lists of naturals below 256. -/

abbrev Bytes := List Nat

/-- Left rotation of a 32-bit word. -/
def rotl32 (s x : Nat) : Nat := ((x <<< s) ||| (x >>> (32 - s))) % 2 ^ 32

/-- Big-endian bytes of `n`, `k` bytes wide. -/
def beBytes (k n : Nat) : Bytes :=
  (List.range k).map (fun i => n >>> (8 * (k - 1 - i)) % 256)

/-- Group a byte string into 32-bit big-endian words. -/
def wordsOfBytes : Bytes → List Nat
  | b₀ :: b₁ :: b₂ :: b₃ :: rest =>
      (((b₀ * 256 + b₁) * 256 + b₂) * 256 + b₃) :: wordsOfBytes rest
  | _ => []

/-- SHA-1 message padding: append `0x80`, zeros up to 56 mod 64, and the
64-bit big-endian bit length. -/
def sha1pad (msg : Bytes) : Bytes :=
  let z := (119 - msg.length % 64) % 64
  msg ++ 0x80 :: List.replicate z 0 ++ beBytes 8 (msg.length * 8)

/-- Split a byte string into 64-byte blocks (`fuel` bounds the recursion and is
instantiated with more than the length). -/
def chunks64 : Nat → Bytes → List Bytes
  | 0, _ => []
  | _, [] => []
  | fuel + 1, l => l.take 64 :: chunks64 fuel (l.drop 64)

/-- Message-schedule extension: starting from the reversed 16-word block, push
`rotl1 (w[t-3] xor w[t-8] xor w[t-14] xor w[t-16])` another `n` times. -/
def sha1Extend : Nat → List Nat → List Nat
  | 0, rw => rw
  | n + 1, rw =>
      let g := fun i => (rw.drop i).headD 0
      sha1Extend n (rotl32 1 (g 2 ^^^ g 7 ^^^ g 13 ^^^ g 15) :: rw)

/-- SHA-1 round function for round `t`. -/
def sha1f (t b c d : Nat) : Nat :=
  if t < 20 then (b &&& c) ||| ((b ^^^ (2 ^ 32 - 1)) &&& d)
  else if t < 40 then b ^^^ c ^^^ d
  else if t < 60 then (b &&& c) ||| (b &&& d) ||| (c &&& d)
  else b ^^^ c ^^^ d

/-- SHA-1 round constant for round `t`. -/
def sha1k (t : Nat) : Nat :=
  if t < 20 then 0x5A827999
  else if t < 40 then 0x6ED9EBA1
  else if t < 60 then 0x8F1BBCDC
  else 0xCA62C1D6

/-- The 80 compression rounds, consuming the extended message schedule. -/
def sha1Rounds : Nat → List Nat → Nat × Nat × Nat × Nat × Nat → Nat × Nat × Nat × Nat × Nat
  | _, [], st => st
  | t, w :: ws, (a, b, c, d, e) =>
      let temp := (rotl32 5 a + sha1f t b c d + e + sha1k t + w) % 2 ^ 32
      sha1Rounds (t + 1) ws (temp, a, rotl32 30 b, c, d)

/-- Fold the compression function over the 64-byte blocks. -/
def sha1Blocks : List Bytes → Nat × Nat × Nat × Nat × Nat → Nat × Nat × Nat × Nat × Nat
  | [], h => h
  | blk :: rest, (h₀, h₁, h₂, h₃, h₄) =>
      let w := (sha1Extend 64 (wordsOfBytes blk).reverse).reverse
      match sha1Rounds 0 w (h₀, h₁, h₂, h₃, h₄) with
      | (a, b, c, d, e) =>
          sha1Blocks rest ((h₀ + a) % 2 ^ 32, (h₁ + b) % 2 ^ 32, (h₂ + c) % 2 ^ 32,
                           (h₃ + d) % 2 ^ 32, (h₄ + e) % 2 ^ 32)

/-- Digest `hashlib.sha1(msg).digest()`: the 20-byte SHA-1 digest. -/
def sha1 (msg : Bytes) : Bytes :=
  let padded := sha1pad msg
  match sha1Blocks (chunks64 (padded.length + 1) padded)
      (0x67452301, 0xEFCDAB89, 0x98BADCFE, 0x10325476, 0xC3D2E1F0) with
  | (h₀, h₁, h₂, h₃, h₄) =>
      beBytes 4 h₀ ++ beBytes 4 h₁ ++ beBytes 4 h₂ ++ beBytes 4 h₃ ++ beBytes 4 h₄

/-- The base64 alphabet. -/
def b64Alphabet : List Char :=
  "ABCDEFGHIJKLMNOPQRSTUVWXYZabcdefghijklmnopqrstuvwxyz0123456789+/".toList

def b64Char (n : Nat) : Char := b64Alphabet.getD n '?'

/-- Standard base64 encoding by 3-byte groups, with `=` padding. -/
def b64Groups : Bytes → List Char
  | b₀ :: b₁ :: b₂ :: rest =>
      let n := (b₀ * 256 + b₁) * 256 + b₂
      b64Char (n / 262144) :: b64Char (n / 4096 % 64) ::
        b64Char (n / 64 % 64) :: b64Char (n % 64) :: b64Groups rest
  | [b₀, b₁] =>
      let n := (b₀ * 256 + b₁) * 256
      [b64Char (n / 262144), b64Char (n / 4096 % 64), b64Char (n / 64 % 64), '=']
  | [b₀] =>
      let n := b₀ * 65536
      [b64Char (n / 262144), b64Char (n / 4096 % 64), '=', '=']
  | [] => []

/-- Encoding `base64.b64encode(msg).decode()`. -/
def b64encode (b : Bytes) : String := String.mk (b64Groups b)

/-- The ASCII bytes of a string. -/
def strBytes (s : String) : Bytes := s.toList.map Char.toNat

/-! ## The WebSocket handshake of `ClientSession._ws_connect` (lines 670-745) -/

/-- Modelled from the spec: `aiohttp.http.WS_KEY`, the ASCII bytes of the fixed
WebSocket GUID constant (the module defining it is not part of this slice). -/
def WS_KEY : Bytes := strBytes "258EAFA5-E914-47DA-95CA-C5AB0DC85B11"

/-- The expected `Sec-WebSocket-Accept` value for a client key (the base64-encoded
bytes `secKey` actually sent): `base64.b64encode(hashlib.sha1(sec_key + WS_KEY).digest())`
(lines 736-738). -/
def wsAcceptValue (secKey : Bytes) : String := b64encode (sha1 (secKey ++ WS_KEY))

/-- Header preparation of `_ws_connect` (lines 670-685): copy the caller headers,
apply `Upgrade`/`Connection`/`Sec-WebSocket-Version` with `setdefault`, then
unconditionally set `Sec-WebSocket-Key` to the freshly generated key. -/
def wsPrepareHeaders (headers : Option Headers) (secKey : String) : Headers :=
  let real := match headers with
    | none => []
    | some h => h
  let real := ciSetDefault real UPGRADE WEBSOCKET
  let real := ciSetDefault real CONNECTION UPGRADE
  let real := ciSetDefault real SEC_WEBSOCKET_VERSION "13"
  ciSetItem real SEC_WEBSOCKET_KEY secKey

/-- Embedding of `WSServerHandshakeError(request_info, history, message=..., status=..., headers=...)`:
the fields the handshake checks populate. -/
structure WSServerHandshakeError where
  message : String
  status : Nat
  headers : Headers
deriving DecidableEq

/-- The handshake validation sequence of `_ws_connect` (lines 711-745): status
must be 101, `Upgrade` must lower-case to `websocket`, `Connection` must
lower-case to `upgrade`, and `Sec-WebSocket-Accept` must equal the locally
computed accept value for the generated key; any violation is a
`WSServerHandshakeError` carrying the response status and headers. -/
def wsHandshakeCheck (secKey : Bytes) (resp : Resp) :
    Except WSServerHandshakeError Unit :=
  if resp.status ≠ 101 then
    .error { message := "Invalid response status", status := resp.status,
             headers := resp.headers }
  else if asciiLower ((ciGet resp.headers UPGRADE).getD "") ≠ "websocket" then
    .error { message := "Invalid upgrade header", status := resp.status,
             headers := resp.headers }
  else if asciiLower ((ciGet resp.headers CONNECTION).getD "") ≠ "upgrade" then
    .error { message := "Invalid connection header", status := resp.status,
             headers := resp.headers }
  else if (ciGet resp.headers SEC_WEBSOCKET_ACCEPT).getD "" ≠ wsAcceptValue secKey then
    .error { message := "Invalid challenge response", status := resp.status,
             headers := resp.headers }
  else
    .ok ()

/-! ## Concrete fixtures and an executable redirect predicate -/

/-- A response that the redirect loop will follow: redirect status and a parsed
`http`/`https` target. -/
def redirectingB (r : Resp) : Bool :=
  (r.status == 301 || r.status == 302 || r.status == 303 ||
    r.status == 307 || r.status == 308) &&
  (match r.loc with
   | .target u => u.scheme == "http" || u.scheme == "https"
   | _ => false)

def urlA : Url := { scheme := "http", host := "a.example", port := 80, path := "/x" }

def urlB : Url := { scheme := "http", host := "b.example", port := 80, path := "/y" }

/-- Initial loop state of a plain GET to `urlA` with no headers, body or auth. -/
def baseState : HopState :=
  { method := METH_GET, url := urlA, headers := [], data := none, auth := none,
    params := none, redirects := 0, history := [] }

/-- A 302 response redirecting to `urlB` (a different origin than `urlA`). -/
def hop302 : Resp :=
  { status := 302, method := METH_GET, headers := [], loc := .target urlB }

/-- A 301 response whose redirect target has scheme `ftp`. -/
def ftpResp : Resp :=
  { status := 301, method := METH_GET, headers := [],
    loc := .target { scheme := "ftp", host := "evil.example", port := 21, path := "/" } }

/-- A 302 response whose redirect target is scheme-relative. -/
def relResp : Resp :=
  { status := 302, method := METH_GET, headers := [],
    loc := .target { scheme := "", host := "b.example", port := 80, path := "/z" } }

/-- Loop state carrying two `Authorization` headers (reachable: the caller may
supply duplicate `Authorization` entries with no `auth` argument, which
`_prepare_headers` keeps as set-then-add). -/
def dupAuthState : HopState :=
  { baseState with headers := [(AUTHORIZATION, "Basic aaa"), (AUTHORIZATION, "Basic bbb")] }

/-- Loop state carrying one `Authorization` header and an auth credential. -/
def oneAuthState : HopState :=
  { baseState with headers := [(AUTHORIZATION, "Basic abc")],
                   auth := some { login := "u", password := "p" } }

/-- A 101 handshake response agreeing with the sample client key of RFC 6455. -/
def sampleWsResp : Resp :=
  { status := 101, method := METH_GET,
    headers := [(UPGRADE, "websocket"), (CONNECTION, "Upgrade"),
                (SEC_WEBSOCKET_ACCEPT, "s3pPLMBiTxaQ9kYGzzhZRbK+xOo=")],
    loc := .absent }

/-- A 101 handshake response with an `Sec-WebSocket-Accept` value that does not
match the sample client key. -/
def forgedWsResp : Resp :=
  { status := 101, method := METH_GET,
    headers := [(UPGRADE, "websocket"), (CONNECTION, "Upgrade"),
                (SEC_WEBSOCKET_ACCEPT, "forged")],
    loc := .absent }

/-- The sample client key of RFC 6455 section 1.2, as its base64 ASCII bytes. -/
def sampleKey : Bytes := strBytes "dGhlIHNhbXBsZSBub25jZQ=="

/-- A session owning a live (not yet closed) connector. -/
def liveOwnedSession : Session :=
  { connector := some ({ closed := false, closeCount := 0 }), connector_owner := true }

/-! ## Lemmas about the header model -/

theorem hkeyEq_iff {a b : String} : hkeyEq a b = true ↔ asciiLower a = asciiLower b := by
  simp [hkeyEq]

theorem hkeyEq_self (k : String) : hkeyEq k k = true := by simp [hkeyEq]

@[simp]
theorem ciGetAll_nil (k : String) : ciGetAll [] k = [] := rfl

theorem ciGetAll_cons (k₀ v : String) (t : Headers) (k : String) :
    ciGetAll ((k₀, v) :: t) k =
      if hkeyEq k₀ k then v :: ciGetAll t k else ciGetAll t k := by
  by_cases h : hkeyEq k₀ k <;> simp [ciGetAll, List.filter_cons, h]

theorem ciGetAll_append (h₁ h₂ : Headers) (k : String) :
    ciGetAll (h₁ ++ h₂) k = ciGetAll h₁ k ++ ciGetAll h₂ k := by
  simp [ciGetAll, List.filter_append]

theorem ciContains_eq_false_iff {h : Headers} {k : String} :
    ciContains h k = false ↔ ciGetAll h k = [] := by
  simp [ciContains, ciGetAll, List.any_eq_false, List.filter_eq_nil_iff]

theorem ciGet_eq_head_getAll (h : Headers) (k : String) :
    ciGet h k = (ciGetAll h k).head? := by
  induction h with
  | nil => rfl
  | cons p t ih =>
      obtain ⟨k₀, v⟩ := p
      rw [ciGetAll_cons]
      by_cases hk : hkeyEq k₀ k <;> simp [ciGet, hk, ih]

theorem ciGetAll_delAll_eq {k₀ k : String} (hk : hkeyEq k₀ k = true) (h : Headers) :
    ciGetAll (ciDelAll h k₀) k = [] := by
  induction h with
  | nil => rfl
  | cons p t ih =>
      obtain ⟨k₁, v₁⟩ := p
      by_cases h₁ : hkeyEq k₁ k₀
      · simpa [ciDelAll, List.filter_cons, h₁] using ih
      · have h₂ : hkeyEq k₁ k = false := by
          rw [hkeyEq_iff] at hk
          rw [Bool.eq_false_iff]
          intro hc
          rw [hkeyEq_iff] at hc
          exact h₁ (hkeyEq_iff.mpr (hc.trans hk.symm))
        simp only [ciDelAll, List.filter_cons, h₁]
        simpa [ciGetAll_cons, h₂, ciDelAll] using ih

theorem ciGetAll_delAll_ne {k₀ k : String} (hk : hkeyEq k₀ k = false) (h : Headers) :
    ciGetAll (ciDelAll h k₀) k = ciGetAll h k := by
  induction h with
  | nil => rfl
  | cons p t ih =>
      obtain ⟨k₁, v₁⟩ := p
      by_cases h₁ : hkeyEq k₁ k₀
      · have h₂ : hkeyEq k₁ k = false := by
          rw [Bool.eq_false_iff]
          intro hc
          rw [hkeyEq_iff] at h₁ hc
          exact (Bool.eq_false_iff.mp hk) (hkeyEq_iff.mpr (h₁.symm.trans hc))
        simp only [ciDelAll, List.filter_cons, h₁]
        simpa [ciGetAll_cons, h₂, ciDelAll] using ih
      · simp only [ciDelAll, List.filter_cons, h₁]
        simp only [Bool.not_eq_true] at h₁
        by_cases h₂ : hkeyEq k₁ k <;>
          simpa [ciGetAll_cons, h₂, ciDelAll] using ih

theorem ciGetAll_setItem_eq {k₀ k : String} (hk : hkeyEq k₀ k = true)
    (h : Headers) (v : String) : ciGetAll (ciSetItem h k₀ v) k = [v] := by
  induction h with
  | nil => simp [ciSetItem, ciGetAll_cons, hk]
  | cons p t ih =>
      obtain ⟨k₁, v₁⟩ := p
      by_cases h₁ : hkeyEq k₁ k₀
      · simp [ciSetItem, h₁, ciGetAll_cons, hk, ciGetAll_delAll_eq hk]
      · have h₂ : hkeyEq k₁ k = false := by
          rw [Bool.eq_false_iff]
          intro hc
          rw [hkeyEq_iff] at hk hc
          exact h₁ (hkeyEq_iff.mpr (hc.trans hk.symm))
        simpa [ciSetItem, h₁, ciGetAll_cons, h₂] using ih

theorem ciGetAll_setItem_ne {k₀ k : String} (hk : hkeyEq k₀ k = false)
    (h : Headers) (v : String) : ciGetAll (ciSetItem h k₀ v) k = ciGetAll h k := by
  induction h with
  | nil => simp [ciSetItem, ciGetAll_cons, hk]
  | cons p t ih =>
      obtain ⟨k₁, v₁⟩ := p
      by_cases h₁ : hkeyEq k₁ k₀
      · have h₂ : hkeyEq k₁ k = false := by
          rw [Bool.eq_false_iff]
          intro hc
          rw [hkeyEq_iff] at h₁ hc
          exact (Bool.eq_false_iff.mp hk) (hkeyEq_iff.mpr (h₁.symm.trans hc))
        simp [ciSetItem, h₁, ciGetAll_cons, h₂, hk, ciGetAll_delAll_ne hk]
      · by_cases h₂ : hkeyEq k₁ k <;>
          simpa [ciSetItem, h₁, ciGetAll_cons, h₂] using ih

theorem ciGetAll_pop_self (h : Headers) (k : String) :
    ciGetAll (ciPop h k) k = (ciGetAll h k).tail := by
  induction h with
  | nil => rfl
  | cons p t ih =>
      obtain ⟨k₁, v₁⟩ := p
      by_cases h₁ : hkeyEq k₁ k <;> simp [ciPop, h₁, ciGetAll_cons, ih]

theorem ciGetAll_pop_ne {k₀ k : String} (hk : hkeyEq k₀ k = false)
    (h : Headers) : ciGetAll (ciPop h k₀) k = ciGetAll h k := by
  induction h with
  | nil => rfl
  | cons p t ih =>
      obtain ⟨k₁, v₁⟩ := p
      by_cases h₁ : hkeyEq k₁ k₀
      · have h₂ : hkeyEq k₁ k = false := by
          rw [Bool.eq_false_iff]
          intro hc
          rw [hkeyEq_iff] at h₁ hc
          exact (Bool.eq_false_iff.mp hk) (hkeyEq_iff.mpr (h₁.symm.trans hc))
        simp [ciPop, h₁, ciGetAll_cons, h₂]
      · by_cases h₂ : hkeyEq k₁ k <;>
          simpa [ciPop, h₁, ciGetAll_cons, h₂] using ih

theorem ciGetAll_setDefault_ne {k₀ k : String} (hk : hkeyEq k₀ k = false)
    (h : Headers) (v : String) :
    ciGetAll (ciSetDefault h k₀ v) k = ciGetAll h k := by
  unfold ciSetDefault
  cases hc : ciContains h k₀
  · simp [ciGetAll_append, ciGetAll_cons, hk]
  · simp

theorem ciGetAll_setDefault_self (h : Headers) (k v : String) :
    ciGetAll (ciSetDefault h k v) k =
      if ciContains h k then ciGetAll h k else [v] := by
  unfold ciSetDefault
  cases hc : ciContains h k
  · simp [ciGetAll_append, ciGetAll_cons, hkeyEq_self,
      ciContains_eq_false_iff.mp hc]
  · simp

theorem ciSetItem_values {h : Headers} {k v : String} :
    ∀ p ∈ ciSetItem h k v, hkeyEq p.1 k = true → p.2 = v := by
  induction h with
  | nil =>
      intro p hp _
      simp [ciSetItem] at hp
      simp [hp]
  | cons q t ih =>
      obtain ⟨k₁, v₁⟩ := q
      intro p hp hpk
      by_cases h₁ : hkeyEq k₁ k
      · simp only [ciSetItem, h₁, cond_true] at hp
        rcases List.mem_cons.mp hp with h₂ | h₂
        · simp [h₂]
        · exact absurd hpk (by
            have := List.of_mem_filter h₂
            simpa using this)
      · simp only [ciSetItem, h₁, cond_false] at hp
        rcases List.mem_cons.mp hp with h₂ | h₂
        · exfalso
          have : hkeyEq k₁ k = true := by rw [h₂] at hpk; exact hpk
          exact h₁ this
        · exact ih p h₂ hpk

theorem hkeyEq_congr_right {k₁ k : String} (hk : hkeyEq k₁ k = true) (a : String) :
    hkeyEq a k = hkeyEq a k₁ := by
  rw [hkeyEq_iff] at hk
  simp [hkeyEq, hk]

theorem ciContains_cons (k₀ v : String) (t : Headers) (k : String) :
    ciContains ((k₀, v) :: t) k = (hkeyEq k₀ k || ciContains t k) := by
  simp [ciContains]

theorem ciGetAll_add (h : Headers) (k₀ v k : String) :
    ciGetAll (ciAdd h k₀ v) k =
      ciGetAll h k ++ if hkeyEq k₀ k then [v] else [] := by
  by_cases hk : hkeyEq k₀ k <;>
    simp [ciAdd, ciGetAll_append, ciGetAll_cons, hk]

/-- Invariant of the `_prepare_headers` fold: for any key, keys already in
`added_names` keep accumulating values, a key first seen in the remaining items
replaces whatever the accumulator held, and untouched keys keep the
accumulator's values. -/
theorem prepareHeadersGo_getAll (rest : Headers) :
    ∀ (h : Headers) (added : List String) (k : String),
      ciGetAll (prepareHeadersGo h added rest) k =
        if added.any (fun a => hkeyEq a k) then ciGetAll h k ++ ciGetAll rest k
        else if ciContains rest k then ciGetAll rest k
        else ciGetAll h k := by
  induction rest with
  | nil =>
      intro h added k
      by_cases ha : added.any (fun a => hkeyEq a k) <;>
        simp [prepareHeadersGo, ha, ciContains]
  | cons q rest₁ ih =>
      obtain ⟨k₁, v⟩ := q
      intro h added k
      by_cases hA : added.any (fun a => hkeyEq a k₁)
      · simp only [prepareHeadersGo, hA, cond_true]
        rw [ih]
        by_cases hk : hkeyEq k₁ k
        · have htr : (fun a => hkeyEq a k) = (fun a => hkeyEq a k₁) :=
            funext (hkeyEq_congr_right hk)
          have haK : added.any (fun a => hkeyEq a k) = true := by rw [htr]; exact hA
          simp [haK, ciGetAll_add, hk, ciGetAll_cons]
        · simp only [Bool.not_eq_true] at hk
          simp [ciGetAll_add, hk, ciGetAll_cons, ciContains_cons]
      · simp only [prepareHeadersGo, hA, cond_false]
        rw [ih]
        by_cases hk : hkeyEq k₁ k
        · have htr : (fun a => hkeyEq a k) = (fun a => hkeyEq a k₁) :=
            funext (hkeyEq_congr_right hk)
          have haK : added.any (fun a => hkeyEq a k) = false := by
            rw [htr]
            simpa using hA
          simp [List.any_cons, hk, haK, ciGetAll_setItem_eq hk,
            ciGetAll_cons, ciContains_cons]
        · simp only [Bool.not_eq_true] at hk
          simp [List.any_cons, hk, ciGetAll_setItem_ne hk, ciGetAll_cons,
            ciContains_cons]

/-- C8: merging caller-supplied headers over the session defaults treats the
first occurrence of each key as a set (overwriting any default values for that
key) and later occurrences as adds, preserving order: for every key, the merged
values are exactly the caller's values for that key when the caller mentions it,
and the default values otherwise; on the spec's example, defaults
`h1: header1` merged with `[(h1, v1), (h1, v2)]` give exactly
`[h1: v1, h1: v2]` with no `header1` surviving. -/
theorem c8_header_merge :
    (∀ (defaults caller : Headers) (k : String),
      ciGetAll (prepare_headers defaults (some caller)) k =
        if ciContains caller k then ciGetAll caller k else ciGetAll defaults k) ∧
    prepare_headers [("h1", "header1")] (some [("h1", "v1"), ("h1", "v2")]) =
      [("h1", "v1"), ("h1", "v2")] := by
  constructor
  · intro defaults caller k
    unfold prepare_headers
    rw [prepareHeadersGo_getAll]
    simp
  · decide

/-! ## Lemmas about the redirect step -/

/-- Behaviour of the redirect-decision block when the counter reaches the
(nonzero) maximum: the response is a redirect, the counter is incremented and
the check `redirects >= max_redirects` fires, raising with the extended
history. -/
theorem processRedirect_tooMany {m : Nat} {st : HopState} {r : Resp}
    (hstat : r.status = 301 ∨ r.status = 302 ∨ r.status = 303 ∨
      r.status = 307 ∨ r.status = 308)
    (hm : m ≠ 0) (hge : m ≤ st.redirects + 1) :
    processRedirect true m st r = .tooManyRedirects (st.history ++ [r]) := by
  unfold processRedirect
  rw [if_pos ⟨hstat, rfl⟩]
  dsimp only
  rw [if_pos ⟨hm, hge⟩]

/-- Behaviour of the redirect-decision block on a followable redirect below the
maximum: the loop continues with the downgraded method/body/headers, the target
URL, cross-origin auth stripping, cleared params, the incremented counter and
the extended history. -/
theorem processRedirect_nextHop {m : Nat} {st : HopState} {r : Resp} {u : Url}
    (hred : redirectingB r = true) (hloc : r.loc = .target u)
    (hmax : m = 0 ∨ st.redirects + 1 < m) :
    processRedirect true m st r = .nextHop
      { method := (downgrade r.status r.method st.data st.headers).1,
        url := u,
        headers :=
          if st.url.origin ≠ u.origin then
            ciPop (downgrade r.status r.method st.data st.headers).2.2 AUTHORIZATION
          else (downgrade r.status r.method st.data st.headers).2.2,
        data := (downgrade r.status r.method st.data st.headers).2.1,
        auth := if st.url.origin ≠ u.origin then none else st.auth,
        params := none,
        redirects := st.redirects + 1,
        history := st.history ++ [r] } := by
  rw [redirectingB, hloc, Bool.and_eq_true] at hred
  obtain ⟨hstat, hscheme⟩ := hred
  simp only [Bool.or_eq_true, beq_iff_eq] at hstat hscheme
  unfold processRedirect
  rw [if_pos ⟨by tauto, rfl⟩]
  dsimp only
  rw [if_neg (by rcases hmax with h | h <;> omega)]
  rw [hloc]
  rcases hdg : downgrade r.status r.method st.data st.headers with ⟨meth, dat, hdrs⟩
  dsimp only
  have hne : ¬(u.scheme ≠ "http" ∧ u.scheme ≠ "https" ∧ u.scheme ≠ "") := by
    rcases hscheme with h | h <;> simp [h]
  rw [if_neg hne]
  have hempty : ¬(u.scheme = "") := by
    rcases hscheme with h | h <;> simp [h]
  rw [if_neg hempty]

/-- If every scripted response is a followable redirect and the counter starts
consistent with the history, a nonzero maximum within reach is hit exactly,
raising `TooManyRedirects` with history length equal to the maximum. -/
theorem requestLoop_tooMany {m : Nat} (hm : m ≠ 0) :
    ∀ (script : List Resp) (st : HopState),
      (∀ r ∈ script, redirectingB r = true) →
      m ≤ st.redirects + script.length →
      st.redirects < m →
      st.history.length = st.redirects →
      ∃ h, (requestLoop true m st script).1 =
          Except.error (ReqError.tooManyRedirects h) ∧ h.length = m := by
  intro script
  induction script with
  | nil =>
      intro st _ hle hlt _
      simp only [List.length_nil, Nat.add_zero] at hle
      omega
  | cons r rest ih =>
      intro st hall hle hlt hhist
      have hr := hall r (List.mem_cons_self r rest)
      have hstat : r.status = 301 ∨ r.status = 302 ∨ r.status = 303 ∨
          r.status = 307 ∨ r.status = 308 := by
        rw [redirectingB, Bool.and_eq_true] at hr
        have := hr.1
        simp only [Bool.or_eq_true, beq_iff_eq] at this
        tauto
      by_cases hcase : m ≤ st.redirects + 1
      · have hp := processRedirect_tooMany hstat hm hcase
        refine ⟨st.history ++ [r], ?_, ?_⟩
        · simp [requestLoop, hp]
        · simp only [List.length_append, List.length_cons, List.length_nil, hhist]
          omega
      · obtain ⟨u, hu⟩ : ∃ u, r.loc = .target u := by
          rw [redirectingB, Bool.and_eq_true] at hr
          cases hl : r.loc with
          | target u => exact ⟨u, rfl⟩
          | absent => rw [hl] at hr; simp at hr
          | malformed => rw [hl] at hr; simp at hr
        have hstep := @processRedirect_nextHop m st r u hr hu (Or.inr (by omega))
        obtain ⟨h, hres, hlen⟩ := ih
          { method := (downgrade r.status r.method st.data st.headers).1,
            url := u,
            headers :=
              if st.url.origin ≠ u.origin then
                ciPop (downgrade r.status r.method st.data st.headers).2.2 AUTHORIZATION
              else (downgrade r.status r.method st.data st.headers).2.2,
            data := (downgrade r.status r.method st.data st.headers).2.1,
            auth := if st.url.origin ≠ u.origin then none else st.auth,
            params := none,
            redirects := st.redirects + 1,
            history := st.history ++ [r] }
          (fun x hx => hall x (List.mem_cons_of_mem _ hx))
          (by
            simp only [List.length_cons] at hle
            show m ≤ st.redirects + 1 + rest.length
            omega)
          (by show st.redirects + 1 < m; omega)
          (by show (st.history ++ [r]).length = st.redirects + 1; simp [hhist])
        refine ⟨h, ?_, hlen⟩
        rw [requestLoop, hstep]
        dsimp only
        rcases hrec : requestLoop true m _ rest with ⟨res, n⟩
        rw [hrec] at hres
        simpa using hres

/-- C1 (amended): the redirect loop checks the counter against the maximum with
`>=`, but only when the maximum is nonzero (the check is guarded by the
truthiness of `max_redirects`): for every nonzero maximum and any script of
followable redirect responses long enough to reach it, the loop raises
`TooManyRedirects` whose history length equals the maximum. A maximum of 0
disables the limit instead of failing on the first redirect. -/
theorem c1_redirect_limit (m : Nat) (script : List Resp) (st : HopState)
    (hm : m ≠ 0) (hall : ∀ r ∈ script, redirectingB r = true)
    (hle : m ≤ script.length) (hst : st.redirects = 0) (hh : st.history = []) :
    ∃ h, (requestLoop true m st script).1 =
        Except.error (ReqError.tooManyRedirects h) ∧ h.length = m :=
  requestLoop_tooMany hm script st hall (by omega) (by omega) (by simp [hh, hst])

/-- C1 witness: with `max_redirects = 2` and two consecutive 302 responses the
loop fails with `TooManyRedirects` carrying both responses as history. -/
theorem c1_redirect_limit_witness :
    (requestLoop true 2 baseState [hop302, hop302]).1 =
      Except.error (ReqError.tooManyRedirects [hop302, hop302]) ∧
    [hop302, hop302].length = 2 := by
  obtain ⟨h, hres, hlen⟩ :=
    c1_redirect_limit 2 [hop302, hop302] baseState (by decide) (by decide)
      (by decide) rfl rfl
  have hconc : (requestLoop true 2 baseState [hop302, hop302]).1 =
      Except.error (ReqError.tooManyRedirects [hop302, hop302]) := rfl
  exact ⟨hconc, rfl⟩

/-- C1 counterexample: with `max_redirects = 0` the loop does NOT fail on the
first redirect response; it keeps following redirects (three connections for
three scripted 302 responses, no `TooManyRedirects`), because the source guards
the check with the truthiness of `max_redirects`. -/
theorem c1_zero_limit_counterexample :
    (requestLoop true 0 baseState [hop302, hop302, hop302]).1 =
      Except.error ReqError.noResponse ∧
    (requestLoop true 0 baseState [hop302, hop302, hop302]).2 = 3 := ⟨rfl, rfl⟩

/-- The downgrade policy touches only `Content-Length`: values of every other
key are untouched. -/
theorem downgrade_getAll_ne (status : Nat) (method : String) (data : Option String)
    (headers : Headers) {k : String} (hk : hkeyEq CONTENT_LENGTH k = false) :
    ciGetAll (downgrade status method data headers).2.2 k = ciGetAll headers k := by
  unfold downgrade
  split
  · dsimp only
    cases hcl : ciGet headers CONTENT_LENGTH with
    | none => rfl
    | some v => cases hv : v == "" <;> simp [hv, ciGetAll_pop_ne hk]
  · rfl

/-- C2 (amended): on a followable redirect hop whose target origin differs from
the current origin, the orchestrator clears the auth credential and pops the
FIRST `Authorization` header (so no `Authorization` header survives whenever at
most one was present — but a later duplicate does survive); on a same-origin
hop, auth and all `Authorization` headers are preserved. -/
theorem c2_cross_origin_auth (m : Nat) (st : HopState) (r : Resp) (u : Url)
    (hred : redirectingB r = true) (hloc : r.loc = LocHeader.target u)
    (hmax : m = 0 ∨ st.redirects + 1 < m) :
    ∃ st₁, processRedirect true m st r = RedirectOutcome.nextHop st₁ ∧
      (st.url.origin ≠ u.origin →
        st₁.auth = none ∧
        ciGetAll st₁.headers AUTHORIZATION =
          (ciGetAll st.headers AUTHORIZATION).tail ∧
        ((ciGetAll st.headers AUTHORIZATION).length ≤ 1 →
          ciContains st₁.headers AUTHORIZATION = false)) ∧
      (st.url.origin = u.origin →
        st₁.auth = st.auth ∧
        ciGetAll st₁.headers AUTHORIZATION = ciGetAll st.headers AUTHORIZATION) := by
  have hCL : hkeyEq CONTENT_LENGTH AUTHORIZATION = false := by decide
  refine ⟨_, processRedirect_nextHop hred hloc hmax, ?_, ?_⟩
  · intro hne
    refine ⟨by simp [hne], ?_, ?_⟩
    · dsimp only
      rw [if_pos hne, ciGetAll_pop_self,
        downgrade_getAll_ne r.status r.method st.data st.headers hCL]
    · intro hlen
      rw [ciContains_eq_false_iff]
      dsimp only
      rw [if_pos hne, ciGetAll_pop_self,
        downgrade_getAll_ne r.status r.method st.data st.headers hCL]
      cases hl : ciGetAll st.headers AUTHORIZATION with
      | nil => rfl
      | cons a t =>
          rw [hl] at hlen
          simp only [List.length_cons] at hlen
          have : t = [] := List.eq_nil_of_length_eq_zero (by omega)
          simp [this]
  · intro heq
    refine ⟨by simp [heq], ?_⟩
    dsimp only
    rw [if_neg (by simp [heq]),
      downgrade_getAll_ne r.status r.method st.data st.headers hCL]

/-- C2 witness: a cross-origin 302 hop with one `Authorization` header and an
auth credential clears both before the next iteration. -/
theorem c2_cross_origin_auth_witness :
    (match processRedirect true 10 oneAuthState hop302 with
     | RedirectOutcome.nextHop st₁ =>
        st₁.auth = none ∧ ciContains st₁.headers AUTHORIZATION = false
     | _ => False) := by
  obtain ⟨st₁, heq, hcross, _⟩ :=
    c2_cross_origin_auth 10 oneAuthState hop302 urlB (by decide) rfl
      (Or.inr (by decide))
  rw [heq]
  have hne : oneAuthState.url.origin ≠ urlB.origin := by decide
  exact ⟨(hcross hne).1, (hcross hne).2.2 (by decide)⟩

/-- C2 counterexample: with two `Authorization` headers (reachable via
caller-supplied duplicates), a cross-origin redirect hop pops only the first:
an `Authorization` header survives into the next iteration, contradicting the
claim that any `Authorization` header is removed. -/
theorem c2_duplicate_auth_counterexample :
    (match processRedirect true 10 dupAuthState hop302 with
     | RedirectOutcome.nextHop st₁ => ciContains st₁.headers AUTHORIZATION
     | _ => false) = true := rfl

/-- C4 (amended): on a redirect hop, status 303 with a non-HEAD method or
301/302 with POST downgrades the method to GET, clears the body, and pops the
first `Content-Length` entry provided its value is non-empty (so the header is
fully removed whenever it was present once with a non-empty value, the normal
case); a `Content-Length` with an empty value, or a later duplicate, survives.
Every other key is untouched, and every other status/method combination
preserves method, body and headers unchanged. -/
theorem c4_method_body_downgrade (status : Nat) (method : String)
    (data : Option String) (headers : Headers) :
    (((status = 303 ∧ method ≠ METH_HEAD) ∨
        ((status = 301 ∨ status = 302) ∧ method = METH_POST)) →
      (downgrade status method data headers).1 = METH_GET ∧
      (downgrade status method data headers).2.1 = none ∧
      (∀ v, ciGet headers CONTENT_LENGTH = some v → v ≠ "" →
        ciGetAll (downgrade status method data headers).2.2 CONTENT_LENGTH =
          (ciGetAll headers CONTENT_LENGTH).tail) ∧
      (∀ k, hkeyEq CONTENT_LENGTH k = false →
        ciGetAll (downgrade status method data headers).2.2 k =
          ciGetAll headers k)) ∧
    (¬ ((status = 303 ∧ method ≠ METH_HEAD) ∨
        ((status = 301 ∨ status = 302) ∧ method = METH_POST)) →
      downgrade status method data headers = (method, data, headers)) := by
  constructor
  · intro hcond
    refine ⟨?_, ?_, ?_, ?_⟩
    · simp [downgrade, hcond]
    · simp [downgrade, hcond]
    · intro v hv hne
      have hbeq : (v == "") = false := by simpa using hne
      simp [downgrade, hcond, hv, hbeq, ciGetAll_pop_self]
    · intro k hk
      exact downgrade_getAll_ne status method data headers hk
  · intro hcond
    simp [downgrade, hcond]

/-- C4 witness: a 302 response to a POST with a single non-empty
`Content-Length` becomes a GET with no body and no `Content-Length`, while a
307 response to a POST preserves method, body and headers. -/
theorem c4_method_body_downgrade_witness :
    (downgrade 302 METH_POST (some "x") [(CONTENT_LENGTH, "3")]).1 = METH_GET ∧
    (downgrade 302 METH_POST (some "x") [(CONTENT_LENGTH, "3")]).2.1 = none ∧
    ciContains (downgrade 302 METH_POST (some "x")
      [(CONTENT_LENGTH, "3")]).2.2 CONTENT_LENGTH = false ∧
    downgrade 307 METH_POST (some "x") [(CONTENT_LENGTH, "3")] =
      (METH_POST, some "x", [(CONTENT_LENGTH, "3")]) := by
  have h₁ := (c4_method_body_downgrade 302 METH_POST (some "x")
    [(CONTENT_LENGTH, "3")]).1 (Or.inr ⟨Or.inr rfl, rfl⟩)
  have h₂ := (c4_method_body_downgrade 307 METH_POST (some "x")
    [(CONTENT_LENGTH, "3")]).2 (by decide)
  refine ⟨h₁.1, h₁.2.1, ?_, h₂⟩
  have h₃ := h₁.2.2.1 "3" rfl (by decide)
  rw [ciContains_eq_false_iff, h₃]
  rfl

/-- C4 counterexample: a 302 response to a POST whose `Content-Length` header
has an empty value is downgraded to GET with no body, but the `Content-Length`
header is NOT removed (the source pops it only when `headers.get(CONTENT_LENGTH)`
is truthy), contradicting the claim that the header is removed. -/
theorem c4_empty_content_length_counterexample :
    downgrade 302 METH_POST (some "body") [(CONTENT_LENGTH, "")] =
      (METH_GET, none, [(CONTENT_LENGTH, "")]) ∧
    ciContains [(CONTENT_LENGTH, "")] CONTENT_LENGTH = true := ⟨rfl, rfl⟩

/-- C6: on a redirect hop below the maximum, a parsed target whose scheme is
neither `http`, `https` nor empty makes the orchestrator close the response and
raise the redirect-scheme error (`badScheme` models `resp.close()` followed by
the `ValueError` whose message says redirects may only go to http or https),
while a scheme-relative target is joined against the current URL and followed. -/
theorem c6_redirect_scheme (m : Nat) (st : HopState) (r : Resp) (u : Url)
    (hstat : r.status = 301 ∨ r.status = 302 ∨ r.status = 303 ∨
      r.status = 307 ∨ r.status = 308)
    (hloc : r.loc = LocHeader.target u)
    (hmax : m = 0 ∨ st.redirects + 1 < m) :
    (u.scheme ≠ "http" → u.scheme ≠ "https" → u.scheme ≠ "" →
      processRedirect true m st r = RedirectOutcome.badScheme) ∧
    (u.scheme = "" →
      ∃ st₁, processRedirect true m st r = RedirectOutcome.nextHop st₁ ∧
        st₁.url = st.url.join u) := by
  constructor
  · intro h₁ h₂ h₃
    unfold processRedirect
    rw [if_pos ⟨hstat, rfl⟩]
    dsimp only
    rw [if_neg (by rcases hmax with h | h <;> omega)]
    rw [hloc]
    rcases downgrade r.status r.method st.data st.headers with ⟨meth, dat, hdrs⟩
    dsimp only
    rw [if_pos ⟨h₁, h₂, h₃⟩]
  · intro hrel
    unfold processRedirect
    rw [if_pos ⟨hstat, rfl⟩]
    dsimp only
    rw [if_neg (by rcases hmax with h | h <;> omega)]
    rw [hloc]
    rcases downgrade r.status r.method st.data st.headers with ⟨meth, dat, hdrs⟩
    dsimp only
    rw [if_neg (by simp [hrel]), if_pos hrel]
    exact ⟨_, rfl, rfl⟩

/-- C6 witness: a 301 redirect to an `ftp` URL yields the redirect-scheme
error, and a 302 redirect to a scheme-relative target is followed, joined
against the current URL (inheriting its `http` scheme). -/
theorem c6_redirect_scheme_witness :
    processRedirect true 10 baseState ftpResp = RedirectOutcome.badScheme ∧
    (match processRedirect true 10 baseState relResp with
     | RedirectOutcome.nextHop st₁ =>
        st₁.url = { scheme := "http", host := "b.example", port := 80, path := "/z" }
     | _ => False) := by
  constructor
  · exact (c6_redirect_scheme 10 baseState ftpResp
      { scheme := "ftp", host := "evil.example", port := 21, path := "/" }
      (Or.inl rfl) rfl (Or.inr (by decide))).1
      (by decide) (by decide) (by decide)
  · obtain ⟨st₁, heq, hurl⟩ := (c6_redirect_scheme 10 baseState relResp
      { scheme := "", host := "b.example", port := 80, path := "/z" }
      (Or.inr (Or.inl rfl)) rfl (Or.inr (by decide))).2 rfl
    rw [heq]
    show st₁.url = _
    rw [hurl]
    rfl

set_option maxRecDepth 40000

/-- C3: once status, `Upgrade` and `Connection` pass, the handshake succeeds
exactly when `Sec-WebSocket-Accept` equals
base64(SHA1(client-key-base64-bytes ++ the fixed GUID)), and any other value
raises the handshake error carrying the response status and headers; for the
sample client key `dGhlIHNhbXBsZSBub25jZQ==` the accepted value is exactly
`s3pPLMBiTxaQ9kYGzzhZRbK+xOo=`. -/
theorem c3_ws_accept (secKey : Bytes) (resp : Resp)
    (hstatus : resp.status = 101)
    (hupg : asciiLower ((ciGet resp.headers UPGRADE).getD "") = "websocket")
    (hconn : asciiLower ((ciGet resp.headers CONNECTION).getD "") = "upgrade") :
    (wsHandshakeCheck secKey resp = Except.ok () ↔
      (ciGet resp.headers SEC_WEBSOCKET_ACCEPT).getD "" = wsAcceptValue secKey) ∧
    ((ciGet resp.headers SEC_WEBSOCKET_ACCEPT).getD "" ≠ wsAcceptValue secKey →
      wsHandshakeCheck secKey resp =
        Except.error { message := "Invalid challenge response",
                       status := resp.status, headers := resp.headers }) ∧
    wsAcceptValue sampleKey = "s3pPLMBiTxaQ9kYGzzhZRbK+xOo=" := by
  have hmain : wsHandshakeCheck secKey resp =
      if (ciGet resp.headers SEC_WEBSOCKET_ACCEPT).getD "" ≠ wsAcceptValue secKey
      then Except.error { message := "Invalid challenge response",
                          status := resp.status, headers := resp.headers }
      else Except.ok () := by
    unfold wsHandshakeCheck
    rw [if_neg (by simp [hstatus]), if_neg (by simp [hupg]),
      if_neg (by simp [hconn])]
  refine ⟨?_, ?_, by decide⟩
  · rw [hmain]
    by_cases hacc : (ciGet resp.headers SEC_WEBSOCKET_ACCEPT).getD "" =
        wsAcceptValue secKey
    · simp [hacc]
    · simp [hacc]
  · intro hacc
    rw [hmain, if_pos hacc]

/-- C3 witness: the sample handshake response is accepted, and the same
response with a forged accept value fails with the handshake error carrying
status 101 and the response headers. -/
theorem c3_ws_accept_witness :
    wsHandshakeCheck sampleKey sampleWsResp = Except.ok () ∧
    wsHandshakeCheck sampleKey forgedWsResp =
      Except.error { message := "Invalid challenge response", status := 101,
                     headers := forgedWsResp.headers } := by
  constructor
  · exact ((c3_ws_accept sampleKey sampleWsResp rfl (by decide) (by decide)).1).mpr
      (by decide)
  · exact (c3_ws_accept sampleKey forgedWsResp rfl (by decide) (by decide)).2.1
      (by decide)

/-- C5 (amended): the per-call `timeout` resolution keeps the session policy for
the sentinel and replaces it entirely for a full `ClientTimeout`; a bare
duration builds a FRESH policy whose `total` is the duration and whose other
fields are unset (`None`) — the session defaults for connect/socket fields are
discarded, not preserved. -/
theorem c5_timeout_resolution (sess : ClientTimeout) (d : Option Nat)
    (t : ClientTimeout) :
    realTimeout sess TimeoutArg.sentinel = sess ∧
    (realTimeout sess (TimeoutArg.bare d)).total = d ∧
    (realTimeout sess (TimeoutArg.bare d)).connect = none ∧
    (realTimeout sess (TimeoutArg.bare d)).sock_read = none ∧
    (realTimeout sess (TimeoutArg.bare d)).sock_connect = none ∧
    realTimeout sess (TimeoutArg.policy t) = t :=
  ⟨rfl, rfl, rfl, rfl, rfl, rfl⟩

/-- C5 counterexample: with a session policy carrying `connect = 30`, a bare
per-call duration of 1 yields a policy whose `connect` is `None`, not the
session default 30 — the claim that non-total fields keep their session-default
values is false. -/
theorem c5_bare_timeout_counterexample :
    realTimeout { total := some 300, connect := some 30 } (TimeoutArg.bare (some 1)) =
      { total := some 1, connect := none, sock_read := none, sock_connect := none } ∧
    realTimeout { total := some 300, connect := some 30 } (TimeoutArg.bare (some 1)) ≠
      { total := some 1, connect := some 30, sock_read := none, sock_connect := none } :=
  ⟨rfl, by decide⟩

/-- C7: supplying both `data` and `json` to a request on an open session fails
synchronously with the mutual-exclusion `ValueError` before any network I/O:
whatever the other arguments and the scripted responses, no connection is
acquired. -/
theorem c7_data_json_conflict (d j : String) (allowRedirects : Bool) (m : Nat)
    (st : HopState) (script : List Resp) :
    runRequest false true (some d) (some j) allowRedirects m st script =
      (Except.error ReqError.dataJsonConflict, 0) := rfl

/-- C9: `close()` is idempotent: one call leaves the session closed, a second
call changes nothing and performs no further teardown; a single call performs
at most one connector teardown, and only when a live connector is present and
owned. -/
theorem c9_close_idempotent (s : Session) :
    (s.close.1).closed = true ∧
    s.close.1.close = (s.close.1, 0) ∧
    s.close.2 ≤ 1 ∧
    (s.close.2 = 1 →
      (∃ c, s.connector = some c ∧ c.closed = false) ∧ s.connector_owner = true) := by
  obtain ⟨conn, owner⟩ := s
  cases conn with
  | none => simp [Session.close, Session.closed]
  | some c =>
      cases hc : c.closed with
      | true => cases owner <;> simp [Session.close, Session.closed, hc]
      | false =>
          cases owner <;>
            simp [Session.close, Session.closed, hc]

/-- C9 witness: closing a session owning a live connector tears the connector
down exactly once and leaves the session closed; the owner flag and live
connector are exactly what the teardown requires. -/
theorem c9_close_idempotent_witness :
    (liveOwnedSession.close.1).closed = true ∧
    liveOwnedSession.close.2 = 1 ∧
    liveOwnedSession.connector_owner = true := by
  have h := c9_close_idempotent liveOwnedSession
  exact ⟨h.1, rfl, (h.2.2.2 rfl).2⟩

/-- C10: in the WebSocket upgrade request, `Upgrade`, `Connection` and
`Sec-WebSocket-Version` are applied only as defaults (a caller-supplied value
is kept, otherwise `websocket` / `Upgrade` / `13` are used), while
`Sec-WebSocket-Key` is always overwritten with the freshly generated key: the
prepared headers hold exactly the generated key under `Sec-WebSocket-Key`, and
no caller-supplied value for it survives. -/
theorem c10_ws_header_defaults (caller : Headers) (secKey : String) :
    (ciContains caller UPGRADE = true →
      ciGet (wsPrepareHeaders (some caller) secKey) UPGRADE = ciGet caller UPGRADE) ∧
    (ciContains caller UPGRADE = false →
      ciGet (wsPrepareHeaders (some caller) secKey) UPGRADE = some WEBSOCKET) ∧
    (ciContains caller CONNECTION = true →
      ciGet (wsPrepareHeaders (some caller) secKey) CONNECTION =
        ciGet caller CONNECTION) ∧
    (ciContains caller CONNECTION = false →
      ciGet (wsPrepareHeaders (some caller) secKey) CONNECTION = some UPGRADE) ∧
    (ciContains caller SEC_WEBSOCKET_VERSION = true →
      ciGet (wsPrepareHeaders (some caller) secKey) SEC_WEBSOCKET_VERSION =
        ciGet caller SEC_WEBSOCKET_VERSION) ∧
    (ciContains caller SEC_WEBSOCKET_VERSION = false →
      ciGet (wsPrepareHeaders (some caller) secKey) SEC_WEBSOCKET_VERSION =
        some "13") ∧
    ciGet (wsPrepareHeaders (some caller) secKey) SEC_WEBSOCKET_KEY = some secKey ∧
    (∀ p ∈ wsPrepareHeaders (some caller) secKey,
      hkeyEq p.1 SEC_WEBSOCKET_KEY = true → p.2 = secKey) := by
  have hKU : hkeyEq SEC_WEBSOCKET_KEY UPGRADE = false := by decide
  have hKC : hkeyEq SEC_WEBSOCKET_KEY CONNECTION = false := by decide
  have hKV : hkeyEq SEC_WEBSOCKET_VERSION UPGRADE = false := by decide
  have hKV₂ : hkeyEq SEC_WEBSOCKET_VERSION CONNECTION = false := by decide
  have hCU : hkeyEq CONNECTION UPGRADE = false := by decide
  have hKSV : hkeyEq SEC_WEBSOCKET_KEY SEC_WEBSOCKET_VERSION = false := by decide
  refine ⟨?_, ?_, ?_, ?_, ?_, ?_, ?_, ?_⟩
  · intro hc
    unfold wsPrepareHeaders
    rw [ciGet_eq_head_getAll, ciGet_eq_head_getAll,
      ciGetAll_setItem_ne hKU, ciGetAll_setDefault_ne hKV,
      ciGetAll_setDefault_ne hCU, ciGetAll_setDefault_self, hc, if_pos rfl]
  · intro hc
    unfold wsPrepareHeaders
    rw [ciGet_eq_head_getAll,
      ciGetAll_setItem_ne hKU, ciGetAll_setDefault_ne hKV,
      ciGetAll_setDefault_ne hCU, ciGetAll_setDefault_self, hc]
    rfl
  · intro hc
    unfold wsPrepareHeaders
    rw [ciGet_eq_head_getAll, ciGet_eq_head_getAll,
      ciGetAll_setItem_ne hKC, ciGetAll_setDefault_ne hKV₂,
      ciGetAll_setDefault_self]
    have hc₂ : ciContains (ciSetDefault caller UPGRADE WEBSOCKET) CONNECTION = true := by
      rw [← Bool.not_eq_false, ciContains_eq_false_iff,
        ciGetAll_setDefault_ne (by decide : hkeyEq UPGRADE CONNECTION = false)]
      rw [← ciContains_eq_false_iff, Bool.not_eq_false]
      exact hc
    rw [hc₂, if_pos rfl,
      ciGetAll_setDefault_ne (by decide : hkeyEq UPGRADE CONNECTION = false)]
  · intro hc
    unfold wsPrepareHeaders
    rw [ciGet_eq_head_getAll,
      ciGetAll_setItem_ne hKC, ciGetAll_setDefault_ne hKV₂,
      ciGetAll_setDefault_self]
    have hc₂ : ciContains (ciSetDefault caller UPGRADE WEBSOCKET) CONNECTION = false := by
      rw [ciContains_eq_false_iff,
        ciGetAll_setDefault_ne (by decide : hkeyEq UPGRADE CONNECTION = false)]
      exact ciContains_eq_false_iff.mp hc
    rw [hc₂]
    rfl
  · intro hc
    unfold wsPrepareHeaders
    rw [ciGet_eq_head_getAll, ciGet_eq_head_getAll,
      ciGetAll_setItem_ne hKSV, ciGetAll_setDefault_self]
    have hc₂ : ciContains (ciSetDefault (ciSetDefault caller UPGRADE WEBSOCKET)
        CONNECTION UPGRADE) SEC_WEBSOCKET_VERSION = true := by
      rw [← Bool.not_eq_false, ciContains_eq_false_iff,
        ciGetAll_setDefault_ne (by decide : hkeyEq CONNECTION SEC_WEBSOCKET_VERSION = false),
        ciGetAll_setDefault_ne (by decide : hkeyEq UPGRADE SEC_WEBSOCKET_VERSION = false)]
      rw [← ciContains_eq_false_iff, Bool.not_eq_false]
      exact hc
    rw [hc₂, if_pos rfl,
      ciGetAll_setDefault_ne (by decide : hkeyEq CONNECTION SEC_WEBSOCKET_VERSION = false),
      ciGetAll_setDefault_ne (by decide : hkeyEq UPGRADE SEC_WEBSOCKET_VERSION = false)]
  · intro hc
    unfold wsPrepareHeaders
    rw [ciGet_eq_head_getAll,
      ciGetAll_setItem_ne hKSV, ciGetAll_setDefault_self]
    have hc₂ : ciContains (ciSetDefault (ciSetDefault caller UPGRADE WEBSOCKET)
        CONNECTION UPGRADE) SEC_WEBSOCKET_VERSION = false := by
      rw [ciContains_eq_false_iff,
        ciGetAll_setDefault_ne (by decide : hkeyEq CONNECTION SEC_WEBSOCKET_VERSION = false),
        ciGetAll_setDefault_ne (by decide : hkeyEq UPGRADE SEC_WEBSOCKET_VERSION = false)]
      exact ciContains_eq_false_iff.mp hc
    rw [hc₂]
    rfl
  · unfold wsPrepareHeaders
    rw [ciGet_eq_head_getAll, ciGetAll_setItem_eq (hkeyEq_self _)]
    rfl
  · intro p hp hpk
    exact ciSetItem_values p hp hpk

/-- C10 witness: with a caller supplying its own `Upgrade` value and its own
`Sec-WebSocket-Key`, the prepared headers keep the caller's `Upgrade`, apply the
`Connection` default, and carry the freshly generated key — not the caller's. -/
theorem c10_ws_header_defaults_witness :
    ciGet (wsPrepareHeaders
        (some [(UPGRADE, "custom"), (SEC_WEBSOCKET_KEY, "attacker")]) "KEY")
      UPGRADE = some "custom" ∧
    ciGet (wsPrepareHeaders
        (some [(UPGRADE, "custom"), (SEC_WEBSOCKET_KEY, "attacker")]) "KEY")
      CONNECTION = some UPGRADE ∧
    ciGet (wsPrepareHeaders
        (some [(UPGRADE, "custom"), (SEC_WEBSOCKET_KEY, "attacker")]) "KEY")
      SEC_WEBSOCKET_KEY = some "KEY" := by
  have h := c10_ws_header_defaults
    [(UPGRADE, "custom"), (SEC_WEBSOCKET_KEY, "attacker")] "KEY"
  refine ⟨?_, ?_, h.2.2.2.2.2.2.1⟩
  · rw [h.1 (by decide)]
    rfl
  · exact h.2.2.2.1 (by decide)

end Aiohttp
